import Mathlib

/-!
# CCI_Offline_AI — verification of the specified core pipeline

Shallow embedding of the climate-monitoring core described by the repository:
readings, the reading store, the ingestion gateway, the analytics engine
(z-score anomaly detection, OLS trend analysis), the broadcast hub, the power
state machine, and the dashboard's SensorCard rendering.

The backend service itself (Python) is not part of the source tree; only its
README contract, the SQLite schema, and the frontend JavaScript are.  Where a
definition embeds code that is present (SensorCard, the API client's default
query limit, the SQL schema for `system_state`) it follows that code; the
rest is modelled from the specification, as marked in each doc comment.
Values are embedded as exact rationals; the z-score comparison
`|v - mean| / sqrt var >= t` is carried in the equivalent squared form
`(v - mean)^2 >= t^2 * var` to stay computable, and the equivalence with the
real-square-root form is proved (`flag_iff_zscoreFlag`).
-/

namespace CCI

/-- The three metrics a reading can carry (`temperature`, `humidity`,
`air_quality`), as in the `anomalies.anomaly_type` and `trends.metric`
columns of the schema. -/
inductive Metric where
  | temperature
  | humidity
  | air_quality
deriving DecidableEq, Repr

/-- A persisted sensor reading, mirroring the `sensor_readings` table of the
schema: surrogate `id`, non-empty `sensor_id`, three optional metric values,
optional integer `rssi`, and a timestamp (modelled as a rational instant,
in hours). -/
structure Reading where
  id : Nat
  sensor_id : String
  temperature : Option ℚ
  humidity : Option ℚ
  air_quality : Option ℚ
  rssi : Option Int
  timestamp : ℚ
deriving DecidableEq, Repr

/-- Project the value of one metric out of a reading. -/
def metricValue (m : Metric) (r : Reading) : Option ℚ :=
  match m with
  | .temperature => r.temperature
  | .humidity => r.humidity
  | .air_quality => r.air_quality

/-- Sample mean of a list of rationals (0 on the empty list). -/
def mean (xs : List ℚ) : ℚ := xs.sum / xs.length

/-- Population variance: mean squared deviation from the mean. -/
def popVar (xs : List ℚ) : ℚ :=
  (xs.map (fun v => (v - mean xs) ^ 2)).sum / xs.length

/-- Distinct sensor ids, in order of first appearance. -/
def sensorsOf (rs : List Reading) : List String :=
  (rs.map Reading.sensor_id).dedup

/-- The `(reading id, value)` pairs of the given sensor's non-null values of
one metric, in stored order. -/
def metricPairs (rs : List Reading) (sid : String) (m : Metric) :
    List (Nat × ℚ) :=
  rs.filterMap fun r =>
    if r.sensor_id = sid then (metricValue m r).map fun v => (r.id, v)
    else none

/-- An anomaly row produced by a detection run, mirroring the `anomalies`
table: the triggering reading, its metric, and the window statistics it was
flagged against (value, mean, population variance).  Severity is the derived
real quantity `severity` below. -/
structure Anomaly where
  sensor_id : String
  reading_id : Nat
  atype : Metric
  value : ℚ
  amean : ℚ
  avar : ℚ
deriving DecidableEq, Repr

/-- Modelled from the spec: anomaly detection for one sensor and one metric
(§4.3).  Pull the non-null values in the window, require at least 3 samples,
compute sample mean and population variance, and flag every reading whose
value `v` satisfies `sigma > 0` and `|v - mean| / sigma >= threshold`; the test is
carried in the exactly equivalent squared form `(v - mean)^2 >= t^2 * var`. -/
def detectSensorMetric (rs : List Reading) (t : ℚ) (sid : String)
    (m : Metric) : List Anomaly :=
  if 3 ≤ (metricPairs rs sid m).length ∧
      0 < popVar ((metricPairs rs sid m).map Prod.snd) then
    (metricPairs rs sid m).filterMap fun p =>
      if t ^ 2 * popVar ((metricPairs rs sid m).map Prod.snd) ≤
          (p.2 - mean ((metricPairs rs sid m).map Prod.snd)) ^ 2 then
        some ⟨sid, p.1, m, p.2, mean ((metricPairs rs sid m).map Prod.snd),
          popVar ((metricPairs rs sid m).map Prod.snd)⟩
      else none
  else []

/-- Modelled from the spec: a full anomaly-detection run (§4.3) over every
known sensor and each of the three metrics independently; the backend code
implementing it is not in the source tree. -/
def detect (rs : List Reading) (t : ℚ) : List Anomaly :=
  (sensorsOf rs).flatMap fun sid =>
    [Metric.temperature, Metric.humidity, Metric.air_quality].flatMap fun m =>
      detectSensorMetric rs t sid m

/-- The absolute z-score of an anomaly's triggering value against its window
statistics: `|v - mean| / sqrt var`. -/
noncomputable def zscore (a : Anomaly) : ℝ :=
  |(a.value : ℝ) - (a.amean : ℝ)| / Real.sqrt (a.avar : ℝ)

/-- Modelled from the spec: the severity scaling `min(1.0, z / 4.0)` (§4.3;
4.0 standard deviations maps to severity 1.0). -/
noncomputable def severityFun (z : ℝ) : ℝ := min 1 (z / 4)

/-- The severity recorded for an anomaly: `severityFun` of its z-score. -/
noncomputable def severity (a : Anomaly) : ℝ := severityFun (zscore a)

/-- The squared flag test used by `detectSensorMetric` is exactly the spec's
`|v - mean| / sqrt var >= t` once the variance is positive and the threshold
nonnegative. -/
theorem flag_iff_zscoreFlag (v mu var t : ℚ) (hvar : 0 < var) (ht : 0 ≤ t) :
    (t ^ 2 * var ≤ (v - mu) ^ 2) ↔
      (t : ℝ) ≤ |(v : ℝ) - (mu : ℝ)| / Real.sqrt (var : ℝ) := by
  have hvR : (0 : ℝ) < (var : ℝ) := by exact_mod_cast hvar
  have htR : (0 : ℝ) ≤ (t : ℝ) := by exact_mod_cast ht
  have hs : (0 : ℝ) < Real.sqrt (var : ℝ) := Real.sqrt_pos.mpr hvR
  have hsq : Real.sqrt (var : ℝ) ^ 2 = (var : ℝ) := Real.sq_sqrt hvR.le
  rw [le_div_iff₀ hs]
  have hpow : (t : ℝ) * Real.sqrt (var : ℝ) ≤ |(v : ℝ) - (mu : ℝ)| ↔
      ((t : ℝ) * Real.sqrt (var : ℝ)) ^ 2 ≤ |(v : ℝ) - (mu : ℝ)| ^ 2 :=
    (pow_le_pow_iff_left₀ (by positivity) (abs_nonneg _) two_ne_zero).symm
  rw [hpow, mul_pow, hsq, sq_abs]
  constructor
  · intro h
    exact_mod_cast h
  · intro h
    exact_mod_cast h

/-- Every anomaly emitted for one sensor/metric run carries that sensor and
metric, records the window statistics it was flagged against, passed the
positive-variance guard, satisfies the threshold test, and references one of
the window's readings. -/
theorem mem_detectSensorMetric {rs : List Reading} {t : ℚ} {sid : String}
    {m : Metric} {a : Anomaly} (h : a ∈ detectSensorMetric rs t sid m) :
    a.sensor_id = sid ∧ a.atype = m ∧
    a.amean = mean ((metricPairs rs sid m).map Prod.snd) ∧
    a.avar = popVar ((metricPairs rs sid m).map Prod.snd) ∧
    0 < a.avar ∧ t ^ 2 * a.avar ≤ (a.value - a.amean) ^ 2 ∧
    (a.reading_id, a.value) ∈ metricPairs rs sid m ∧
    3 ≤ (metricPairs rs sid m).length := by
  unfold detectSensorMetric at h
  split at h
  case isTrue hcond =>
    rw [List.mem_filterMap] at h
    obtain ⟨p, hp, hpa⟩ := h
    split at hpa
    case isTrue hflag =>
      cases hpa
      refine ⟨rfl, rfl, rfl, rfl, hcond.2, hflag, ?_, hcond.1⟩
      simpa using hp
    case isFalse hflag => cases hpa
  case isFalse => cases h

/-- Membership in a full detection run decomposes into membership in one
sensor/metric sub-run. -/
theorem mem_detect {rs : List Reading} {t : ℚ} {a : Anomaly} :
    a ∈ detect rs t ↔
      ∃ sid ∈ sensorsOf rs, ∃ m : Metric, a ∈ detectSensorMetric rs t sid m := by
  unfold detect
  simp only [List.mem_flatMap]
  constructor
  · rintro ⟨sid, hsid, m, hm, ha⟩
    exact ⟨sid, hsid, m, ha⟩
  · rintro ⟨sid, hsid, m, ha⟩
    refine ⟨sid, hsid, m, ?_, ha⟩
    cases m <;> simp

/-- C3: anomaly detection over a window with zero variance for a given sensor
and metric produces no Anomaly for that sensor/metric, for every threshold;
and every produced Anomaly comes from a strictly positive variance, so the
z-score division is never reached with a zero standard deviation. -/
theorem detect_zero_variance (rs : List Reading) (t : ℚ) (sid : String)
    (m : Metric) (hvar : popVar ((metricPairs rs sid m).map Prod.snd) = 0) :
    (∀ a ∈ detect rs t, ¬(a.sensor_id = sid ∧ a.atype = m)) ∧
    (∀ a ∈ detect rs t, 0 < a.avar) := by
  constructor
  · rintro a ha ⟨hsid, hm⟩
    obtain ⟨sid', -, m', ha'⟩ := mem_detect.mp ha
    obtain ⟨h1, h2, -, h4, h5, -⟩ := mem_detectSensorMetric ha'
    rw [h1] at hsid
    rw [h2] at hm
    subst hsid
    subst hm
    rw [h4, hvar] at h5
    exact lt_irrefl 0 h5
  · intro a ha
    obtain ⟨sid', -, m', ha'⟩ := mem_detect.mp ha
    exact (mem_detectSensorMetric ha').2.2.2.2.1

/-- A constant series used to witness the zero-variance case: three identical
temperature readings from one sensor. -/
def constReadings : List Reading :=
  [⟨1, "ENV003", some 5, none, none, none, 0⟩,
   ⟨2, "ENV003", some 5, none, none, none, 1⟩,
   ⟨3, "ENV003", some 5, none, none, none, 2⟩]

unseal Rat.add Rat.mul Rat.inv Rat.sub Rat.ofScientific in
/-- Witness for C3 at a concrete constant dataset: the variance is zero and
the run flags nothing for that sensor and metric. -/
theorem detect_zero_variance_witness :
    popVar ((metricPairs constReadings "ENV003" Metric.temperature).map
      Prod.snd) = 0 ∧
    (∀ a ∈ detect constReadings 2,
      ¬(a.sensor_id = "ENV003" ∧ a.atype = Metric.temperature)) :=
  ⟨by decide, (detect_zero_variance constReadings 2 "ENV003" Metric.temperature
    (by decide)).1⟩

/-- The five `ENV001` readings of the end-to-end example, with temperatures
`[20, 21, 20, 21, 95]`. -/
def env001Readings : List Reading :=
  [⟨1, "ENV001", some 20, none, none, none, 0⟩,
   ⟨2, "ENV001", some 21, none, none, none, 1⟩,
   ⟨3, "ENV001", some 20, none, none, none, 2⟩,
   ⟨4, "ENV001", some 21, none, none, none, 3⟩,
   ⟨5, "ENV001", some 95, none, none, none, 4⟩]

unseal Rat.add Rat.mul Rat.inv Rat.sub Rat.ofScientific in
/-- C1 (counterexample): the end-to-end run does not produce exactly one
Anomaly.  Over `[20, 21, 20, 21, 95]` the window statistics are mean
`177/5` and population variance `88824/100`, and the threshold test for the
95 reading compares `(95 - 177/5)^2 = 88804/25` against
`2^2 * 88824/100 = 88824/25`, which fails: its z-score is just below 2.0. -/
theorem detect_env001_not_one : (detect env001Readings 2).length ≠ 1 := by
  decide

unseal Rat.add Rat.mul Rat.inv Rat.sub Rat.ofScientific in
/-- C1 (amended): running anomaly detection with threshold 2.0 over the five
`ENV001` readings with temperatures `[20, 21, 20, 21, 95]` produces no
Anomaly at all: the absolute z-score of the 95 reading is
`sqrt(88804/88824) * 2`, strictly below the 2.0 threshold, and the other
readings are closer to the mean still. -/
theorem detect_env001_empty : detect env001Readings 2 = [] := by
  decide

/-- C2: for every Anomaly produced by a detection run, the recorded severity
is exactly `min 1 (z/4)` of its absolute z-score `z`, lies within
`[0, 1]`, is non-decreasing in the z-score, and saturates at 1 for every
z-score at least 4. -/
theorem severity_bounds (rs : List Reading) (t : ℚ) (a : Anomaly)
    (ha : a ∈ detect rs t) :
    severity a = min 1 (zscore a / 4) ∧
    0 ≤ severity a ∧ severity a ≤ 1 ∧
    (∀ z₁ z₂ : ℝ, z₁ ≤ z₂ → severityFun z₁ ≤ severityFun z₂) ∧
    (∀ z : ℝ, 4 ≤ z → severityFun z = 1) := by
  refine ⟨rfl, ?_, ?_, ?_, ?_⟩
  · have hz : 0 ≤ zscore a :=
      div_nonneg (abs_nonneg _) (Real.sqrt_nonneg _)
    exact le_min zero_le_one (by positivity)
  · exact min_le_left _ _
  · intro z₁ z₂ h
    exact min_le_min le_rfl (by linarith)
  · intro z h
    have : (1 : ℝ) ≤ z / 4 := by linarith
    exact min_eq_left this

/-- A dataset that does produce an anomaly, to witness C2: temperatures
`[0, 0, 0, 0, 10]` give mean 2, population variance 16, and the 10 reading
has z-score exactly 2. -/
def sevReadings : List Reading :=
  [⟨1, "ENV002", some 0, none, none, none, 0⟩,
   ⟨2, "ENV002", some 0, none, none, none, 1⟩,
   ⟨3, "ENV002", some 0, none, none, none, 2⟩,
   ⟨4, "ENV002", some 0, none, none, none, 3⟩,
   ⟨5, "ENV002", some 10, none, none, none, 4⟩]

/-- The single anomaly produced over `sevReadings`. -/
def sevAnomaly : Anomaly := ⟨"ENV002", 5, Metric.temperature, 10, 2, 16⟩

unseal Rat.add Rat.mul Rat.inv Rat.sub Rat.ofScientific in
/-- Witness for C2 at a concrete produced anomaly. -/
theorem severity_bounds_witness :
    sevAnomaly ∈ detect sevReadings 2 ∧
    0 ≤ severity sevAnomaly ∧ severity sevAnomaly ≤ 1 :=
  ⟨by decide, (severity_bounds sevReadings 2 sevAnomaly (by decide)).2.1,
    (severity_bounds sevReadings 2 sevAnomaly (by decide)).2.2.1⟩

/-- Trend direction labels, as in the `trends.trend_direction` column. -/
inductive Direction where
  | increasing
  | decreasing
  | stable
deriving DecidableEq, Repr

/-- Modelled from the spec: the dead-band classification of a regression
slope (§4.3): `slope > +eps → increasing`, `slope < -eps → decreasing`,
otherwise `stable`. -/
def trendDirection (slope eps : ℚ) : Direction :=
  if eps < slope then .increasing
  else if slope < -eps then .decreasing
  else .stable

/-- A trend row produced by a trend-analysis run, mirroring the `trends`
table. -/
structure Trend where
  sensor_id : String
  metric : Metric
  trend_direction : Direction
  slope : ℚ
  time_window : ℚ
deriving DecidableEq, Repr

/-- Ordinary least-squares slope of `y` against `x` over a list of
`(x, y)` points. -/
def olsSlope (pts : List (ℚ × ℚ)) : ℚ :=
  ((pts.length : ℚ) * (pts.map fun p => p.1 * p.2).sum -
      (pts.map Prod.fst).sum * (pts.map Prod.snd).sum) /
    ((pts.length : ℚ) * (pts.map fun p => p.1 ^ 2).sum -
      (pts.map Prod.fst).sum ^ 2)

/-- The `(timestamp, value)` points of one sensor's non-null values of one
metric, in stored order. -/
def trendPoints (rs : List Reading) (sid : String) (m : Metric) :
    List (ℚ × ℚ) :=
  rs.filterMap fun r =>
    if r.sensor_id = sid then (metricValue m r).map fun v => (r.timestamp, v)
    else none

/-- Modelled from the spec: trend analysis for one sensor and one metric
(§4.3): with at least 2 timestamped samples in the window, fit an OLS line
and classify its slope by the dead-band. -/
def analyzeSensorMetric (rs : List Reading) (hrs eps : ℚ) (sid : String)
    (m : Metric) : List Trend :=
  if 2 ≤ (trendPoints rs sid m).length then
    [⟨sid, m, trendDirection (olsSlope (trendPoints rs sid m)) eps,
      olsSlope (trendPoints rs sid m), hrs⟩]
  else []

/-- Modelled from the spec: a full trend-analysis run (§4.3) over every
known sensor and each of the three metrics; the backend code implementing it
is not in the source tree. -/
def analyze (rs : List Reading) (hrs eps : ℚ) : List Trend :=
  (sensorsOf rs).flatMap fun sid =>
    [Metric.temperature, Metric.humidity, Metric.air_quality].flatMap fun m =>
      analyzeSensorMetric rs hrs eps sid m

/-- Every trend row of a run is classified from its own slope by the
dead-band rule. -/
theorem mem_analyze_direction {rs : List Reading} {hrs eps : ℚ} {tr : Trend}
    (h : tr ∈ analyze rs hrs eps) :
    tr.trend_direction = trendDirection tr.slope eps := by
  unfold analyze at h
  simp only [List.mem_flatMap] at h
  obtain ⟨sid, -, m, -, htr⟩ := h
  unfold analyzeSensorMetric at htr
  split at htr
  case isTrue => simp only [List.mem_singleton] at htr; subst htr; rfl
  case isFalse => cases htr

/-- The dead-band classifier's three outcomes, for a positive dead-band:
`increasing` exactly above `+eps`, `decreasing` exactly below `-eps`, and
`stable` exactly on the closed band `|slope| ≤ eps`. -/
theorem trendDirection_cases (slope eps : ℚ) (heps : 0 < eps) :
    (trendDirection slope eps = .increasing ↔ eps < slope) ∧
    (trendDirection slope eps = .decreasing ↔ slope < -eps) ∧
    (trendDirection slope eps = .stable ↔ |slope| ≤ eps) := by
  unfold trendDirection
  split_ifs with h1 h2
  · exact ⟨iff_of_true rfl h1,
      iff_of_false (by simp) (by intro h; linarith),
      iff_of_false (by simp)
        (by intro h; have := (abs_le.mp h).2; linarith)⟩
  · exact ⟨iff_of_false (by simp) h1,
      iff_of_true rfl h2,
      iff_of_false (by simp)
        (by intro h; have := (abs_le.mp h).1; linarith)⟩
  · exact ⟨iff_of_false (by simp) h1,
      iff_of_false (by simp) h2,
      iff_of_true rfl
        (abs_le.mpr ⟨by linarith [not_lt.mp h2], by linarith [not_lt.mp h1]⟩)⟩

/-- Two readings whose OLS slope is exactly the dead-band constant
`1/100`. -/
def boundaryReadings : List Reading :=
  [⟨1, "ENV004", some 0, none, none, none, 0⟩,
   ⟨2, "ENV004", some (1/100), none, none, none, 1⟩]

unseal Rat.add Rat.mul Rat.inv Rat.sub Rat.ofScientific in
/-- C4 (counterexample): a trend-analysis run with dead-band `eps = 1/100`
produces a Trend whose slope equals `1/100 ≥ eps` yet whose direction is
`stable`, not `increasing`: the §4.3 rule is strict at the boundary, so
"increasing iff slope ≥ eps" fails at `slope = eps`. -/
theorem trend_boundary_not_increasing :
    ∃ tr ∈ analyze boundaryReadings 24 (1/100),
      (1/100 : ℚ) ≤ tr.slope ∧ tr.trend_direction ≠ Direction.increasing := by
  decide

/-- C4 (amended): for every Trend produced by a trend-analysis run with a
positive dead-band `eps`, the direction is `increasing` iff `slope > eps`,
`decreasing` iff `slope < -eps`, and `stable` iff `|slope| ≤ eps`
(so the boundary slopes `±eps` are classified `stable`); the three cases
are mutually exclusive and exhaustive. -/
theorem trend_direction_spec (rs : List Reading) (hrs eps : ℚ)
    (heps : 0 < eps) (tr : Trend) (htr : tr ∈ analyze rs hrs eps) :
    (tr.trend_direction = .increasing ↔ eps < tr.slope) ∧
    (tr.trend_direction = .decreasing ↔ tr.slope < -eps) ∧
    (tr.trend_direction = .stable ↔ |tr.slope| ≤ eps) ∧
    (tr.trend_direction = .increasing ∨ tr.trend_direction = .decreasing ∨
      tr.trend_direction = .stable) := by
  rw [mem_analyze_direction htr]
  obtain ⟨h1, h2, h3⟩ := trendDirection_cases tr.slope eps heps
  refine ⟨h1, h2, h3, ?_⟩
  cases hd : trendDirection tr.slope eps
  · exact Or.inl rfl
  · exact Or.inr (Or.inl rfl)
  · exact Or.inr (Or.inr rfl)

/-- The spec's own trend example: hourly temperatures `[10, 12, 14, 16, 18]`,
whose OLS slope is exactly 2 per hour. -/
def hourlyReadings : List Reading :=
  [⟨1, "ENV005", some 10, none, none, none, 0⟩,
   ⟨2, "ENV005", some 12, none, none, none, 1⟩,
   ⟨3, "ENV005", some 14, none, none, none, 2⟩,
   ⟨4, "ENV005", some 16, none, none, none, 3⟩,
   ⟨5, "ENV005", some 18, none, none, none, 4⟩]

/-- The trend row produced over `hourlyReadings`. -/
def hourlyTrend : Trend := ⟨"ENV005", .temperature, .increasing, 2, 24⟩

unseal Rat.add Rat.mul Rat.inv Rat.sub Rat.ofScientific in
/-- Witness for C4 at the spec's hourly example: slope 2 with dead-band
`1/100` is classified `increasing`. -/
theorem trend_direction_spec_witness :
    hourlyTrend ∈ analyze hourlyReadings 24 (1/100) ∧
    (hourlyTrend.trend_direction = .increasing ↔ (1/100 : ℚ) < hourlyTrend.slope) :=
  ⟨by decide, (trend_direction_spec hourlyReadings 24 (1/100) (by decide)
    hourlyTrend (by decide)).1⟩

/-- A raw wire reading as received by the Ingestion Gateway (§6): optional
sensor id, three optional metrics, optional integer rssi, optional
timestamp. -/
structure RawReading where
  sensor_id : Option String
  temperature : Option ℚ
  humidity : Option ℚ
  air_quality : Option ℚ
  rssi : Option Int
  timestamp : Option ℚ
deriving DecidableEq, Repr

/-- The error taxonomy entry signalled for a malformed reading (§7). -/
inductive IngestError where
  | validationError
deriving DecidableEq, Repr

/-- Modelled from the spec: ingestion validation (§4.2): a reading passes
iff its `sensor_id` is present and non-empty and at least one of the three
metrics is present. -/
def validateReading (r : RawReading) : Bool :=
  (match r.sensor_id with
   | none => false
   | some s => !(s == "")) &&
  (r.temperature.isSome || r.humidity.isSome || r.air_quality.isSome)

/-- Data for a reading before the store assigns its id. -/
structure ReadingData where
  sensor_id : String
  temperature : Option ℚ
  humidity : Option ℚ
  air_quality : Option ℚ
  rssi : Option Int
  timestamp : ℚ
deriving DecidableEq, Repr

/-- The reading persisted for data `d` under store-assigned id `i`. -/
def mkReading (i : Nat) (d : ReadingData) : Reading :=
  ⟨i, d.sensor_id, d.temperature, d.humidity, d.air_quality, d.rssi,
    d.timestamp⟩

/-- Modelled from the spec and schema: the Reading Store — an append-only
log whose `id` counter mirrors `INTEGER PRIMARY KEY AUTOINCREMENT`; rows are
kept in append order, oldest first. -/
structure Store where
  rows : List Reading
  nextId : Nat
deriving DecidableEq, Repr

/-- The store at process start: no rows, ids starting at 1. -/
def emptyStore : Store := ⟨[], 1⟩

/-- `append`: assign the next id, persist the row, return the id (§4.1). -/
def Store.append (s : Store) (d : ReadingData) : Store × Nat :=
  (⟨s.rows ++ [mkReading s.nextId d], s.nextId + 1⟩, s.nextId)

/-- The default query limit, from the dashboard API client
(`getReadings(limit = 100, ...)`). -/
def defaultQueryLimit : Nat := 100

/-- Modelled from the spec: an unfiltered store query returns the rows
most-recent first, bounded by `limit` (§4.1), defaulting to
`defaultQueryLimit`. -/
def Store.query (s : Store) (limit : Nat := defaultQueryLimit) :
    List Reading :=
  s.rows.reverse.take limit

/-- Run a whole sequence of appends. -/
def appendAll (s : Store) (ds : List ReadingData) : Store :=
  ds.foldl (fun st d => (st.append d).1) s

/-- The ids handed back by a sequence of append calls, in call order. -/
def returnedIds (s : Store) (ds : List ReadingData) : List Nat :=
  match ds with
  | [] => []
  | d :: ds => (s.append d).2 :: returnedIds (s.append d).1 ds

/-- The readings a sequence of data should persist as, ids assigned
consecutively from `n`. -/
def assignIds (n : Nat) (ds : List ReadingData) : List Reading :=
  match ds with
  | [] => []
  | d :: ds => mkReading n d :: assignIds (n + 1) ds

/-- A sequence of appends extends the log by the consecutively-numbered
rows, advances the id counter by its length, and returns exactly those
consecutive ids. -/
theorem appendAll_spec (ds : List ReadingData) (s : Store) :
    (appendAll s ds).rows = s.rows ++ assignIds s.nextId ds ∧
    (appendAll s ds).nextId = s.nextId + ds.length ∧
    returnedIds s ds = List.range' s.nextId ds.length := by
  induction ds generalizing s with
  | nil => simp [appendAll, returnedIds, assignIds]
  | cons d ds ih =>
    have step : appendAll s (d :: ds) = appendAll (s.append d).1 ds := rfl
    obtain ⟨h1, h2, h3⟩ := ih (s.append d).1
    refine ⟨?_, ?_, ?_⟩
    · rw [step, h1]
      simp [Store.append, assignIds, List.append_assoc]
    · rw [step, h2]
      simp [Store.append, List.length_cons]
      omega
    · show (s.append d).2 :: returnedIds (s.append d).1 ds = _
      rw [h3]
      simp [Store.append, List.length_cons, List.range'_succ]

/-- Consecutively assigned rows carry the consecutive ids. -/
theorem assignIds_map_id (n : Nat) (ds : List ReadingData) :
    (assignIds n ds).map Reading.id = List.range' n ds.length := by
  induction ds generalizing n with
  | nil => simp [assignIds]
  | cons d ds ih => simp [assignIds, mkReading, List.range'_succ, ih]

/-- C6: for every sequence of append calls starting from the empty store,
the returned ids are strictly increasing in call order, and an unfiltered
query afterwards returns the persisted rows in reverse-append order
(most-recent first) truncated to `limit`; the implementation default for
`limit` is 100. -/
theorem store_ids_increasing_query_reverse (ds : List ReadingData)
    (limit : Nat) :
    List.Pairwise (· < ·) (returnedIds emptyStore ds) ∧
    Store.query (appendAll emptyStore ds) limit =
      (assignIds 1 ds).reverse.take limit ∧
    Store.query (appendAll emptyStore ds) =
      (assignIds 1 ds).reverse.take 100 ∧
    defaultQueryLimit = 100 := by
  obtain ⟨h1, -, h3⟩ := appendAll_spec ds emptyStore
  refine ⟨?_, ?_, ?_, rfl⟩
  · rw [h3]
    exact List.pairwise_lt_range' _ _
  · rw [Store.query, h1]
    simp [emptyStore]
  · rw [Store.query, h1]
    simp [emptyStore, defaultQueryLimit]

/-- Modelled from the spec: gateway ingestion (§4.2): validate the raw
reading; on failure signal `ValidationError` without touching the store, on
success persist it via the store's append (timestamp defaulting to the
ingestion instant). -/
def ingest (s : Store) (r : RawReading) (now : ℚ) :
    Except IngestError (Store × Nat) :=
  if validateReading r then
    .ok (s.append ⟨r.sensor_id.getD "", r.temperature, r.humidity,
      r.air_quality, r.rssi, r.timestamp.getD now⟩)
  else
    .error .validationError

/-- C5: ingestion rejects a raw reading with `ValidationError` exactly when
its sensor id is missing or empty or all three metrics are absent; every
accepted reading is persisted as exactly one appended row. -/
theorem ingest_rejects_iff (s : Store) (r : RawReading) (now : ℚ) :
    (ingest s r now = .error .validationError ↔
      (r.sensor_id = none ∨ r.sensor_id = some "" ∨
        (r.temperature = none ∧ r.humidity = none ∧
          r.air_quality = none))) ∧
    (∀ s' i, ingest s r now = .ok (s', i) →
      ∃ rd, s'.rows = s.rows ++ [mkReading i rd]) := by
  constructor
  · rw [ingest]
    rcases r with ⟨sid, t, h, a, rssi, ts⟩
    cases sid <;> cases t <;> cases h <;> cases a <;>
      simp [validateReading, Option.isSome, beq_iff_eq]
  · intro s' i h
    rw [ingest] at h
    split at h
    case isTrue =>
      cases h
      exact ⟨_, rfl⟩
    case isFalse => cases h

unseal Rat.add Rat.mul Rat.inv Rat.sub Rat.ofScientific in
/-- Witness for C5: the QUICKSTART test reading (`TEST001`, 22.5, 65, 45) is
accepted and persisted; an all-null reading is rejected. -/
theorem ingest_rejects_iff_witness :
    (∃ rd, (Store.append emptyStore ⟨"TEST001", some (45/2), some 65,
        some 45, none, 0⟩).1.rows = emptyStore.rows ++ [mkReading 1 rd]) ∧
    ingest emptyStore ⟨some "S", none, none, none, none, none⟩ 0 =
      .error .validationError :=
  ⟨(ingest_rejects_iff emptyStore
      ⟨some "TEST001", some (45/2), some 65, some 45, none, none⟩ 0).2
      _ 1 rfl,
   (ingest_rejects_iff emptyStore
      ⟨some "S", none, none, none, none, none⟩ 0).1.mpr
      (Or.inr (Or.inr ⟨rfl, rfl, rfl⟩))⟩

/-- The push-event envelope of the live-stream boundary (§6): a tagged
variant with exactly the `reading` and `anomaly` payload shapes. -/
inductive EventMsg where
  | reading (r : Reading)
  | anomaly (a : Anomaly)
deriving DecidableEq, Repr

/-- One live subscriber: its handle and its bounded delivery queue, oldest
event first. -/
structure Subscriber where
  handle : Nat
  queue : List EventMsg
deriving DecidableEq, Repr

/-- Modelled from the spec: the Broadcast Hub state (§4.4): per-subscriber
queue capacity, the live subscriber set, and a fresh-handle counter. -/
structure Hub where
  cap : Nat
  subs : List Subscriber
  nextHandle : Nat
deriving DecidableEq, Repr

/-- Bounded lossy enqueue (§4.4): append the event and drop from the front
when over capacity (drop-oldest). -/
def pushBounded (cap : Nat) (q : List EventMsg) (e : EventMsg) :
    List EventMsg :=
  (q ++ [e]).drop ((q ++ [e]).length - cap)

/-- Hub operations: subscribe, unsubscribe, publish (§4.4). -/
inductive HubOp where
  | subscribe
  | unsubscribe (h : Nat)
  | publish (e : EventMsg)
deriving DecidableEq, Repr

/-- Modelled from the spec: one hub transition (§4.4): `subscribe` registers
a fresh handle with an empty queue; `unsubscribe` removes a handle,
idempotent if already removed; `publish` delivers to every currently
subscribed handle. -/
def hubStep (s : Hub) : HubOp → Hub
  | .subscribe => ⟨s.cap, s.subs ++ [⟨s.nextHandle, []⟩], s.nextHandle + 1⟩
  | .unsubscribe h => ⟨s.cap, s.subs.filter (fun sub => sub.handle != h),
      s.nextHandle⟩
  | .publish e => ⟨s.cap,
      s.subs.map (fun sub => ⟨sub.handle, pushBounded s.cap sub.queue e⟩),
      s.nextHandle⟩

/-- Run a sequence of hub operations. -/
def hubRun (s : Hub) (ops : List HubOp) : Hub := ops.foldl hubStep s

/-- The handles currently subscribed. -/
def handlesOf (s : Hub) : List Nat := s.subs.map Subscriber.handle

/-- The delivery queue of a handle (empty when not subscribed). -/
def queueOf (s : Hub) (h : Nat) : List EventMsg :=
  match s.subs.find? (fun sub => sub.handle == h) with
  | some sub => sub.queue
  | none => []

/-- `find?` ignores a filter whose predicate is implied by the search
predicate. -/
theorem find?_filter_of_imp {α : Type} (l : List α) (p q : α → Bool)
    (hpq : ∀ x, p x = true → q x = true) :
    (l.filter q).find? p = l.find? p := by
  induction l with
  | nil => rfl
  | cons x l ih =>
    by_cases hq : q x = true
    · rw [List.filter_cons_of_pos hq]
      by_cases hp : p x = true
      · rw [List.find?_cons_of_pos _ hp, List.find?_cons_of_pos _ hp]
      · rw [List.find?_cons_of_neg _ (by simpa using hp),
          List.find?_cons_of_neg _ (by simpa using hp)]
        exact ih
    · rw [List.filter_cons_of_neg (by simpa using hq)]
      have hp : ¬p x = true := fun hp => hq (hpq x hp)
      rw [List.find?_cons_of_neg _ (by simpa using hp)]
      exact ih

/-- A handle that is not subscribed has the empty queue. -/
theorem queueOf_eq_nil_of_not_mem {s : Hub} {h : Nat}
    (hh : h ∉ handlesOf s) : queueOf s h = [] := by
  unfold queueOf
  rw [List.find?_eq_none.mpr]
  intro sub hsub
  simp only [beq_iff_eq]
  intro he
  exact hh (he ▸ List.mem_map_of_mem Subscriber.handle hsub)

/-- Delivering an event to every subscriber commutes with looking one
subscriber up by handle. -/
theorem find?_handle_map_push (l : List Subscriber) (cap : Nat)
    (e : EventMsg) (h : Nat) :
    (l.map fun sub =>
        (⟨sub.handle, pushBounded cap sub.queue e⟩ : Subscriber)).find?
      (fun sub => sub.handle == h) =
    (l.find? (fun sub => sub.handle == h)).map
      (fun sub => (⟨sub.handle, pushBounded cap sub.queue e⟩ : Subscriber)) := by
  induction l with
  | nil => rfl
  | cons x l ih =>
    by_cases hx : (x.handle == h) = true
    · simp [List.find?_cons, hx]
    · rw [List.map_cons, List.find?_cons_of_neg _ (by simpa using hx),
        List.find?_cons_of_neg _ (by simpa using hx)]
      exact ih

/-- A step that is not a publish of `e` never introduces `e` into any
handle's queue. -/
theorem queueOf_step_not_mem {s : Hub} {h : Nat} {e : EventMsg}
    (he : e ∉ queueOf s h) (op : HubOp) (hop : op ≠ .publish e) :
    e ∉ queueOf (hubStep s op) h := by
  cases op with
  | subscribe =>
    unfold queueOf at he ⊢
    unfold hubStep
    simp only
    rw [List.find?_append]
    cases hfind : s.subs.find? (fun sub => sub.handle == h) with
    | some sub =>
      rw [hfind] at he
      simpa using he
    | none =>
      simp only [Option.none_or]
      cases hfind2 : [(⟨s.nextHandle, []⟩ : Subscriber)].find?
          (fun sub => sub.handle == h) with
      | some sub =>
        have hmem : sub ∈ [(⟨s.nextHandle, []⟩ : Subscriber)] :=
          List.mem_of_find?_eq_some hfind2
        simp only [List.mem_singleton] at hmem
        subst hmem
        simp
      | none => simp
  | unsubscribe h' =>
    unfold queueOf at he ⊢
    unfold hubStep
    simp only
    by_cases hhh : h' = h
    · subst hhh
      have hnone : (s.subs.filter (fun sub => sub.handle != h')).find?
          (fun sub => sub.handle == h') = none := by
        rw [List.find?_eq_none]
        intro sub hsub
        rw [List.mem_filter] at hsub
        simpa using hsub.2
      rw [hnone]
      simp
    · rw [find?_filter_of_imp]
      · exact he
      · intro sub hsub
        simp only [beq_iff_eq] at hsub
        simp [bne_iff_ne, hsub, Ne.symm hhh]
  | publish e' =>
    have hee : e ≠ e' := fun hc => hop (by rw [hc])
    unfold queueOf at he ⊢
    unfold hubStep
    simp only
    rw [find?_handle_map_push]
    cases hfind : s.subs.find? (fun sub => sub.handle == h) with
    | some sub =>
      rw [hfind] at he
      show e ∉ pushBounded s.cap sub.queue e'
      intro hmem
      have hm2 : e ∈ sub.queue ++ [e'] := List.mem_of_mem_drop hmem
      rw [List.mem_append] at hm2
      rcases hm2 with h1 | h1
      · exact he h1
      · simp only [List.mem_singleton] at h1
        exact hee h1
    | none => simp

/-- Running any sequence that never publishes `e` cannot introduce `e` into
a handle's queue. -/
theorem queueOf_run_not_mem {s : Hub} {h : Nat} {e : EventMsg}
    (he : e ∉ queueOf s h) (ops : List HubOp)
    (hops : HubOp.publish e ∉ ops) :
    e ∉ queueOf (hubRun s ops) h := by
  induction ops generalizing s with
  | nil => exact he
  | cons op ops ih =>
    have h1 : op ≠ .publish e := fun hc => hops (hc ▸ List.mem_cons_self _ _)
    have h2 : HubOp.publish e ∉ ops := fun hc => hops (List.mem_cons_of_mem _ hc)
    exact ih (queueOf_step_not_mem he op h1) h2

/-- C7: publishing with zero subscribers leaves the hub state unchanged
(success, no observable effect); and a handle not subscribed while a prefix
of operations ran never holds an event from that prefix afterwards, as long
as the suffix does not republish it — a new subscriber receives no
backlog. -/
theorem hub_publish_no_backlog :
    (∀ (s : Hub) (e : EventMsg), s.subs = [] →
      hubStep s (.publish e) = s) ∧
    (∀ (s₀ : Hub) (pre post : List HubOp) (h : Nat) (e : EventMsg),
      h ∉ handlesOf (hubRun s₀ pre) → HubOp.publish e ∉ post →
      e ∉ queueOf (hubRun s₀ (pre ++ post)) h) := by
  constructor
  · intro s e hs
    cases s
    simp_all [hubStep]
  · intro s₀ pre post h e hh hpost
    have hsplit : hubRun s₀ (pre ++ post) = hubRun (hubRun s₀ pre) post := by
      simp [hubRun, List.foldl_append]
    rw [hsplit]
    exact queueOf_run_not_mem
      (by rw [queueOf_eq_nil_of_not_mem hh]; exact List.not_mem_nil e)
      post hpost

/-- A hub as created at startup: capacity 16, no subscribers. -/
def hub0 : Hub := ⟨16, [], 0⟩

/-- A sample reading event. -/
def ev0 : EventMsg := .reading ⟨1, "ENV001", some 20, none, none, none, 0⟩

/-- Witness for C7: publishing into the empty hub changes nothing, and a
handle subscribing after that publish never receives the event. -/
theorem hub_publish_no_backlog_witness :
    hubStep hub0 (.publish ev0) = hub0 ∧
    ev0 ∉ queueOf (hubRun hub0 ([.publish ev0] ++ [.subscribe])) 0 :=
  ⟨hub_publish_no_backlog.1 hub0 ev0 rfl,
   hub_publish_no_backlog.2 hub0 [.publish ev0] [.subscribe] 0 ev0
     (by decide) (by decide)⟩

/-- The power modes of the `system_state.power_mode` column. -/
inductive PowerMode where
  | active
  | idle
  | sleep
deriving DecidableEq, Repr

/-- The singleton activity/power record, mirroring the `system_state` row
fields `last_activity`, `power_mode`, `ml_last_run`. -/
structure SystemState where
  last_activity : ℚ
  power_mode : PowerMode
  ml_last_run : Option ℚ
deriving DecidableEq, Repr

/-- Modelled from the spec: the lazy power-mode transition rule (§4.5), with
`T` the idle timeout: `Δ < T → active`, `T ≤ Δ < 2T → idle`,
`Δ ≥ 2T → sleep` where `Δ = now - last_activity`. -/
def evalPowerMode (T now last : ℚ) : PowerMode :=
  if now - last < T then .active
  else if now - last < 2 * T then .idle
  else .sleep

/-- Modelled from the spec: `wake()` (§4.5): set `last_activity = now` and
`power_mode = active` unconditionally, regardless of prior mode. -/
def wake (s : SystemState) (now : ℚ) : SystemState :=
  ⟨now, .active, s.ml_last_run⟩

/-- C8: from every prior state, `wake` sets `last_activity` to now and
stores mode `active`, and the lazily evaluated power mode read immediately
afterwards (at that same instant, for any positive idle timeout) is
`active`. -/
theorem wake_always_active (s : SystemState) (now T : ℚ) (hT : 0 < T) :
    (wake s now).last_activity = now ∧
    (wake s now).power_mode = .active ∧
    evalPowerMode T now (wake s now).last_activity = .active := by
  refine ⟨rfl, rfl, ?_⟩
  unfold wake evalPowerMode
  simp only
  rw [if_pos]
  simpa using hT

unseal Rat.add Rat.mul Rat.inv Rat.sub Rat.ofScientific in
/-- Witness for C8: waking from `sleep` at instant 1000 with the default
300-second idle timeout reads back `active`. -/
theorem wake_always_active_witness :
    (0 : ℚ) < 300 ∧
    evalPowerMode 300 1000 (wake ⟨0, .sleep, none⟩ 1000).last_activity =
      .active :=
  ⟨by decide,
   (wake_always_active ⟨0, .sleep, none⟩ 1000 300 (by decide)).2.2⟩

/-- A row of the `system_state` relation; the schema constrains
`id INTEGER PRIMARY KEY CHECK (id = 1)`. -/
structure StateRow where
  id : Nat
  state : SystemState
deriving DecidableEq, Repr

/-- The operations that touch the singleton row: the ingestion activity
reset (§4.2), the explicit wake call, the lazy power-mode evaluation
(§4.5), and the analytics `ml_last_run` update (§4.3). -/
inductive SysOp where
  | activityReset (now : ℚ)
  | wakeCall (now : ℚ)
  | modeEval (T now : ℚ)
  | mlRunUpdate (now : ℚ)
deriving DecidableEq, Repr

/-- How one operation rewrites the singleton state. -/
def applySysOp (op : SysOp) (st : SystemState) : SystemState :=
  match op with
  | .activityReset now => ⟨now, .active, st.ml_last_run⟩
  | .wakeCall now => wake st now
  | .modeEval T now =>
      ⟨st.last_activity, evalPowerMode T now st.last_activity,
        st.ml_last_run⟩
  | .mlRunUpdate now => ⟨st.last_activity, st.power_mode, some now⟩

/-- Startup initialization of the relation, from the schema:
`INSERT OR IGNORE INTO system_state (id, last_activity, power_mode)
VALUES (1, CURRENT_TIMESTAMP, 'active')`. -/
def initStateDb (now : ℚ) (db : List StateRow) : List StateRow :=
  if db.any (fun r => r.id == 1) then db
  else db ++ [⟨1, ⟨now, .active, none⟩⟩]

/-- Every operation is an in-place UPDATE of the `id = 1` row: it never
inserts or deletes a row. -/
def applyDbOp (op : SysOp) (db : List StateRow) : List StateRow :=
  db.map fun r => if r.id = 1 then ⟨1, applySysOp op r.state⟩ else r

/-- Run a sequence of operations against the relation. -/
def runSysOps (db : List StateRow) (ops : List SysOp) : List StateRow :=
  ops.foldl (fun d op => applyDbOp op d) db

/-- Updates keep a singleton `id = 1` relation a singleton `id = 1`
relation. -/
theorem runSysOps_singleton (ops : List SysOp) (st : SystemState) :
    ∃ st', runSysOps [⟨1, st⟩] ops = [⟨1, st'⟩] := by
  induction ops generalizing st with
  | nil => exact ⟨st, rfl⟩
  | cons op ops ih =>
    have hstep : runSysOps [⟨1, st⟩] (op :: ops) =
        runSysOps [⟨1, applySysOp op st⟩] ops := by
      simp [runSysOps, applyDbOp]
    rw [hstep]
    exact ih (applySysOp op st)

/-- C9: started from the empty relation, initialization creates exactly one
row, `id = 1`, `active` at the startup instant; after any sequence of
operations exactly that one row still exists (same id — operations update
in place, never insert a second row or delete the row); and re-running the
initialization afterwards changes nothing. -/
theorem system_state_singleton (now : ℚ) (ops : List SysOp) :
    initStateDb now [] = [⟨1, ⟨now, .active, none⟩⟩] ∧
    (∃ st, runSysOps (initStateDb now []) ops = [⟨1, st⟩]) ∧
    (∀ now', initStateDb now' (runSysOps (initStateDb now []) ops) =
      runSysOps (initStateDb now []) ops) := by
  have hinit : initStateDb now [] = [⟨1, ⟨now, .active, none⟩⟩] := by
    simp [initStateDb]
  refine ⟨hinit, ?_, ?_⟩
  · rw [hinit]
    exact runSysOps_singleton ops _
  · intro now'
    rw [hinit]
    obtain ⟨st, hst⟩ := runSysOps_singleton ops
      (⟨now, .active, none⟩ : SystemState)
    rw [hst]
    simp [initStateDb]

/-- JavaScript truthiness of the optional integer `rssi` field:
`undefined`, `null` and `0` are falsy; every other integer is truthy. -/
def rssiTruthy : Option Int → Bool
  | none => false
  | some n => !(n == 0)

/-- A rendered row of the dashboard's SensorCard. -/
inductive CardRow where
  | metricRow (label : String) (value : Option ℚ)
  | signalRow (rssi : Int)
  | updatedRow (ts : ℚ)
deriving DecidableEq, Repr

/-- The SensorCard component of the dashboard (`SensorCard.jsx`): the three
metric rows, then `{reading.rssi && <Signal row>}` — the Signal row is
rendered exactly when `reading.rssi` is truthy — then the last-updated
row. -/
def renderSensorCard (r : Reading) : List CardRow :=
  [.metricRow "Temperature" r.temperature,
   .metricRow "Humidity" r.humidity,
   .metricRow "Air Quality" r.air_quality] ++
  (if rssiTruthy r.rssi then [.signalRow (r.rssi.getD 0)] else []) ++
  [.updatedRow r.timestamp]

/-- C10: the Signal row is displayed iff `rssi` is truthy — present and
non-zero; consequently a reading whose `rssi` is exactly 0 renders no
Signal row, and its card is identical to that of the same reading with
`rssi` absent. -/
theorem sensorCard_signal_iff_truthy (r : Reading) :
    ((∃ n, CardRow.signalRow n ∈ renderSensorCard r) ↔
      (∃ n, r.rssi = some n ∧ n ≠ 0)) ∧
    (r.rssi = some 0 →
      renderSensorCard r = renderSensorCard
        ⟨r.id, r.sensor_id, r.temperature, r.humidity, r.air_quality,
          none, r.timestamp⟩) := by
  constructor
  · cases hr : r.rssi with
    | none => simp [renderSensorCard, rssiTruthy, hr]
    | some n =>
      by_cases hn : n = 0
      · subst hn
        simp [renderSensorCard, rssiTruthy, hr]
      · simp [renderSensorCard, rssiTruthy, hr, hn]
  · intro hr
    simp [renderSensorCard, rssiTruthy, hr]

/-- Witness for C10: a card with `rssi = 0` renders identically to the same
card with `rssi` absent. -/
theorem sensorCard_signal_iff_truthy_witness :
    renderSensorCard ⟨1, "ENV001", some 20, some 65, some 45, some 0, 0⟩ =
      renderSensorCard ⟨1, "ENV001", some 20, some 65, some 45, none, 0⟩ :=
  (sensorCard_signal_iff_truthy
    ⟨1, "ENV001", some 20, some 65, some 45, some 0, 0⟩).2 rfl

end CCI
